/-
Verification of the FinPull realtime ingest pipeline against its
natural-language specification.

Each Go function relevant to the checked claims is shallowly embedded as a
Lean definition that mirrors the source control flow:

* `pkg/cache` MemoryCache           → `FinPull.Cache`
* `internal/services/features`      → `FinPull.Features`
* rate limiter (`ratelimit` pkg)    → `FinPull.RateLimit`
* realtime pipeline (`middleware`)  → `FinPull.Pipeline`
* `pkg/kafka` consumer worker       → `FinPull.Consumer`
* `pkg/queue` hook chain            → `FinPull.Hooks`

Go `float64` values are modelled as elements of a linear ordered field
(instantiated at `ℚ` or `ℝ`); `time.Duration` values are modelled in
integer nanoseconds (or milliseconds where noted); Go maps are modelled as
`String → Option _` functions; the transcendental functions `math.Log` and
`math.Sqrt` are passed as parameters and instantiated with `Real.log` and
`Real.sqrt` in the theorems.
-/
import Mathlib

namespace FinPull

/-! ## Cache: in-memory cache (pkg/cache memory implementation) -/

namespace Cache

/-- Embedding of `MemoryItem`: a cached value with an absolute expiry
instant (modelled in integer nanoseconds). -/
structure MemoryItem (V : Type) where
  value : V
  expireAt : Int
  deriving Repr, DecidableEq

/-- Embedding of `MemoryItem.IsExpired`: `time.Now().After(m.ExpireAt)`. -/
def MemoryItem.isExpired (m : MemoryItem V) (now : Int) : Bool :=
  now > m.expireAt

/-- Embedding of the mutable state of `MemoryCache`: the `data` map and the
`access` (last-access time) map. -/
structure MemoryCacheState (V : Type) where
  data : String → Option (MemoryItem V)
  access : String → Option Int

/-- Errors surfaced by the cache; `cacheMiss` embeds `ErrCacheMiss`. -/
inductive CacheErr where
  | cacheMiss
  deriving Repr, DecidableEq

/-- Embedding of `MemoryCache.DeleteByPattern`: it ignores the pattern,
replaces both maps with fresh empty maps, and returns a nil error. -/
def deleteByPattern (_st : MemoryCacheState V) (_pattern : String) :
    MemoryCacheState V × Option CacheErr :=
  ({ data := fun _ => none, access := fun _ => none }, none)

/-- Embedding of `MemoryCache.Get`: a missing or expired entry is a cache
miss (an expired entry is additionally deleted from both maps); a live
entry refreshes its access time and is returned. The first component is
the result delivered to the caller, the second the post-call state. -/
def get (st : MemoryCacheState V) (now : Int) (key : String) :
    Except CacheErr V × MemoryCacheState V :=
  match st.data key with
  | none => (Except.error CacheErr.cacheMiss, st)
  | some item =>
    if item.isExpired now then
      (Except.error CacheErr.cacheMiss,
        { data := fun k => if k = key then none else st.data k
          access := fun k => if k = key then none else st.access k })
    else
      (Except.ok item.value,
        { st with access := fun k => if k = key then some now else st.access k })

end Cache

/-! ## Features: log returns and realized volatility
(internal/services/features/extractor.go) -/

namespace Features

/-- Embedding of `models.Candle` (OHLCV row); prices are field elements,
the bucket timestamp is in integer nanoseconds. -/
structure Candle (α : Type) where
  bucket : Int
  symbol : String
  openPrice : α
  high : α
  low : α
  close : α
  volume : α
  orgID : String

/-- Embedding of `ComputeLogReturns`: for fewer than two candles return
nil, otherwise for each adjacent pair emit `lg (cur/prev)` of the closes
when both are positive and `0` otherwise. The Go `math.Log` is the
parameter `lg`. -/
def ComputeLogReturns [LinearOrderedField α] (lg : α → α)
    (candles : List (Candle α)) : List α :=
  if candles.length < 2 then []
  else
    (candles.zip candles.tail).map fun pc =>
      if pc.1.close ≤ 0 ∨ pc.2.close ≤ 0 then 0
      else lg (pc.2.close / pc.1.close)

/-- Embedding of `RealizedVolatility`: zero when the window is ≤ 1 or the
series is shorter than the window; otherwise the annualized square root of
the (clamped-at-zero) sample variance of the last `window` returns. The Go
`math.Sqrt` is the parameter `sqrtF`. -/
def RealizedVolatility [LinearOrderedField α] (sqrtF : α → α)
    (logReturns : List α) (window : Nat) (barsPerYear : α) : α :=
  if window ≤ 1 ∨ logReturns.length < window then 0
  else
    let w := logReturns.drop (logReturns.length - window)
    let sum := w.sum
    let sum2 := (w.map fun r => r * r).sum
    let n : α := (window : α)
    let mean := sum / n
    let variance := (sum2 - n * mean * mean) / (n - 1)
    let v := if variance < 0 then 0 else variance
    sqrtF (v * barsPerYear)

/-- Embedding of `BarsPerYearForTF`: bars per year for each timeframe with
the 1m default. -/
def BarsPerYearForTF [LinearOrderedField α] (tf : String) : α :=
  match tf with
  | "1s" => 365 * 24 * 60 * 60
  | "1m" => 365 * 24 * 60
  | "5m" => 365 * 24 * 12
  | _ => 365 * 24 * 60

end Features

/-! ## RateLimit: token bucket rate limiter (ratelimit package) -/

namespace RateLimit

/-- Embedding of `bucket`: fractional token count, capacity, refill rate
(tokens per second) and the last refill instant (in seconds, as a
rational, matching `time.Time.Sub(..).Seconds()`). -/
structure Bucket where
  tokens : ℚ
  capacity : ℚ
  refillRate : ℚ
  last : ℚ
  deriving Repr, DecidableEq

/-- Embedding of the refill section of `Limiter.Allow`: when time has
elapsed, add `elapsed * refillRate` tokens, clamp at capacity, and advance
`last`. -/
def refill (b : Bucket) (now : ℚ) : Bucket :=
  let elapsed := now - b.last
  if elapsed > 0 then
    let t := b.tokens + elapsed * b.refillRate
    { b with tokens := if t > b.capacity then b.capacity else t, last := now }
  else b

/-- Embedding of `Limiter.Allow` for a single key: a missing bucket is
created full at the given capacity with `last = now`; then the bucket is
refilled; then one token is consumed iff at least one token is held. The
first component is the returned Bool, the second the post-call bucket
stored back in the map. -/
def allow (st : Option Bucket) (now capacity refillPerSec : ℚ) :
    Bool × Bucket :=
  let b0 :=
    match st with
    | none => { tokens := capacity
                capacity := capacity
                refillRate := refillPerSec
                last := now }
    | some b => b
  let b := refill b0 now
  if b.tokens ≥ 1 then (true, { b with tokens := b.tokens - 1 })
  else (false, b)

end RateLimit

/-! ## Pipeline: realtime middleware pipeline (middleware package) -/

namespace Pipeline

/-- Embedding of `models.Trade`: symbol, unix-seconds timestamp, price and
volume. -/
structure Trade where
  symbol : String
  timestamp : Int
  price : ℚ
  volume : ℚ
  deriving Repr, DecidableEq

/-- Validation failure reasons of `validateTrade`, one per early return. -/
inductive ValidateErr where
  | symbolEmpty
  | timestampInvalid
  | negativePriceVolume
  deriving Repr, DecidableEq

/-- Embedding of `validateTrade` (the nil-pointer check is unreachable in
the model, where trades are values). -/
def validateTrade (t : Trade) : Option ValidateErr :=
  if t.symbol = "" then some ValidateErr.symbolEmpty
  else if t.timestamp ≤ 0 then some ValidateErr.timestampInvalid
  else if t.price < 0 ∨ t.volume < 0 then some ValidateErr.negativePriceVolume
  else none

/-- Embedding of `RealtimePipeline.allow`: the per-symbol gap check.
`lastSeen` is the per-symbol map of last accepted instants, times are in
integer nanoseconds and `1000000000 / maxRPS` is Go's integer division
`time.Second / time.Duration(maxRPS)`. Returns the decision and the
updated map. -/
def allow (maxRPS : Int) (lastSeen : String → Option Int)
    (symbol : String) (now : Int) : Bool × (String → Option Int) :=
  if maxRPS ≤ 0 then (true, lastSeen)
  else
    match lastSeen symbol with
    | none => (true, fun s => if s = symbol then some now else lastSeen s)
    | some last =>
      if now - last < 1000000000 / maxRPS then (false, lastSeen)
      else (true, fun s => if s = symbol then some now else lastSeen s)

/-- Counter observable effects recorded by the pipeline, one per
`metrics.RecordError` site in `Process`. -/
inductive Counter where
  | validate
  | transformInvalid
  | throttle
  | throttleSym (symbol : String)
  | processErr
  | bufferFull
  deriving Repr, DecidableEq

/-- Result of `RealtimePipeline.Process` as seen by the caller. -/
inductive ProcessResult where
  | invalid (e : ValidateErr)
  | throttledNil
  | ok
  | downstreamErr
  deriving Repr, DecidableEq

/-- Application of the optional transform hook (`p.transform`) to a
trade, as done in `RealtimePipeline.Process`. -/
def transformed (transform : Option (Trade → Trade)) (t : Trade) : Trade :=
  match transform with
  | some f => f t
  | none => t

/-- Observable outcome of one `RealtimePipeline.Process` call: the
returned result, whether the trade was forwarded to the downstream
processor, the updated throttle map, the buffer contents after the call,
and the counters recorded (in order). -/
structure ProcessOut where
  result : ProcessResult
  forwarded : Bool
  lastSeen : String → Option Int
  buffer : List Trade
  counters : List Counter

/-- Embedding of `RealtimePipeline.Process`: validate, optionally
transform and revalidate, throttle via the gap check, then forward
downstream; a downstream failure buffers the trade non-blocking
(tail-drop with a counter when full) and returns a wrapped error.
`downstreamOk` models the result of `proc.Process`; `cap` is the buffer
channel capacity; `now` is the instant captured at entry. -/
def process (maxRPS : Int) (transform : Option (Trade → Trade))
    (downstreamOk : Bool) (cap : Nat) (buffer : List Trade)
    (lastSeen : String → Option Int) (t : Trade) (now : Int) : ProcessOut :=
  match validateTrade t with
  | some e =>
    { result := ProcessResult.invalid e
      forwarded := false
      lastSeen := lastSeen
      buffer := buffer
      counters := [Counter.validate] }
  | none =>
    let t1 := transformed transform t
    match transform, validateTrade t1 with
    | some _, some e =>
      { result := ProcessResult.invalid e
        forwarded := false
        lastSeen := lastSeen
        buffer := buffer
        counters := [Counter.transformInvalid] }
    | _, _ =>
      let a := allow maxRPS lastSeen t1.symbol now
      if a.1 = false then
        { result := ProcessResult.throttledNil
          forwarded := false
          lastSeen := a.2
          buffer := buffer
          counters := [Counter.throttle, Counter.throttleSym t1.symbol] }
      else if downstreamOk then
        { result := ProcessResult.ok
          forwarded := true
          lastSeen := a.2
          buffer := buffer
          counters := [] }
      else if buffer.length < cap then
        { result := ProcessResult.downstreamErr
          forwarded := true
          lastSeen := a.2
          buffer := buffer ++ [t1]
          counters := [Counter.processErr] }
      else
        { result := ProcessResult.downstreamErr
          forwarded := true
          lastSeen := a.2
          buffer := buffer
          counters := [Counter.processErr, Counter.bufferFull] }

end Pipeline

/-! ## Pipeline flusher: background buffer drain loop
(`RealtimePipeline.Start` in the middleware package) -/

namespace Flusher

/-- State of the background flusher goroutine: the persistent `backoff`
variable (milliseconds, seeded at 50), the buffered-trade channel content,
the number of downstream calls made so far, and the observable effects
(processed count, drop count, chronological sleep durations). -/
structure FlushState (T : Type) where
  backoff : Nat
  buffer : List T
  calls : Nat
  processed : Nat
  drops : Nat
  sleeps : List Nat
  deriving Repr

/-- Initial flusher state: `backoff := 50 * time.Millisecond` with the
given channel content. -/
def flushInit (buffer : List T) : FlushState T :=
  { backoff := 50
    buffer := buffer
    calls := 0
    processed := 0
    drops := 0
    sleeps := [] }

/-- Embedding of one iteration of the flusher loop in
`RealtimePipeline.Start`: dequeue a trade and call downstream (`proc`
gives the result of the i-th downstream call); on failure double the
backoff while it is below 2 s, sleep the (already doubled) backoff, and
re-enqueue the trade if the channel has room, else drop it with a
counter; on success reset the backoff to 50 ms. An empty channel blocks
(modelled as a no-op iteration). -/
def flushIter (cap : Nat) (proc : Nat → Bool) (s : FlushState T) :
    FlushState T :=
  match s.buffer with
  | [] => s
  | t :: rest =>
    if proc s.calls then
      { s with
        buffer := rest
        calls := s.calls + 1
        processed := s.processed + 1
        backoff := 50 }
    else
      let nb := if s.backoff < 2000 then s.backoff * 2 else s.backoff
      if rest.length < cap then
        { backoff := nb
          buffer := rest ++ [t]
          calls := s.calls + 1
          processed := s.processed
          drops := s.drops
          sleeps := s.sleeps ++ [nb] }
      else
        { backoff := nb
          buffer := rest
          calls := s.calls + 1
          processed := s.processed
          drops := s.drops + 1
          sleeps := s.sleeps ++ [nb] }

/-- Run `n` iterations of the flusher loop. -/
def flushRun (cap : Nat) (proc : Nat → Bool) : Nat → FlushState T → FlushState T
  | 0, s => s
  | n + 1, s => flushRun cap proc n (flushIter cap proc s)

end Flusher

/-! ## Consumer: Kafka consumer worker (pkg/kafka/consumer.go) -/

namespace Consumer

/-- Joint behaviour of the hook chain and the handler at one attempt of
the retry loop in `messageWorker`: either `BeforeHandle` fails, or the
handler is called and fails, or the handler succeeds. -/
inductive AttemptSpec (E : Type) where
  | hookErr (e : E)
  | handlerErr (e : E)
  | handlerOk
  deriving Repr, DecidableEq

/-- Observable outcome of the retry loop in `messageWorker`: number of
loop iterations, number of handler invocations, the error left in `err`
on exit, and the attempts at which the per-attempt `OnError` hook fired
before a backoff sleep. -/
structure LoopResult (E : Type) where
  attempts : Nat
  handlerCalls : Nat
  finalErr : Option E
  onErrorAttempts : List Nat
  deriving Repr, DecidableEq

/-- Embedding of the retry loop in `messageWorker`, starting at attempt
number `attempt`. A `BeforeHandle` error sets `err` and breaks out at
once; a handler success breaks with `err = nil`; a handler failure breaks
when `attempts > RetryMax` and otherwise fires `OnError`, sleeps, and
retries. -/
def runLoop (retryMax : Nat) (beh : Nat → AttemptSpec E) (attempt : Nat) :
    LoopResult E :=
  match beh attempt with
  | AttemptSpec.hookErr e =>
    { attempts := 1, handlerCalls := 0, finalErr := some e, onErrorAttempts := [] }
  | AttemptSpec.handlerOk =>
    { attempts := 1, handlerCalls := 1, finalErr := none, onErrorAttempts := [] }
  | AttemptSpec.handlerErr e =>
    if h : retryMax < attempt then
      { attempts := 1, handlerCalls := 1, finalErr := some e, onErrorAttempts := [] }
    else
      let r := runLoop retryMax beh (attempt + 1)
      { attempts := r.attempts + 1
        handlerCalls := r.handlerCalls + 1
        finalErr := r.finalErr
        onErrorAttempts := attempt :: r.onErrorAttempts }
termination_by retryMax + 1 - attempt
decreasing_by omega

/-- Header key attached to dead-letter messages. -/
def sourceTopicKey : String := "source_topic"

/-- A message written to the dead-letter topic. -/
structure DlqMessage (P : Type) where
  topic : String
  value : P
  headers : List (String × String)
  deriving Repr, DecidableEq

/-- Observable outcome of processing one message in `messageWorker`. -/
structure WorkerOutcome (P E : Type) where
  loop : LoopResult E
  dlqWrites : List (DlqMessage P)
  committed : Bool

/-- Embedding of `messageWorker` for one dequeued message: run the retry
loop from attempt 1; on a final error write the original payload to the
DLQ topic with a `source_topic` header when a DLQ is configured
(`DLQTopic ≠ ""`), the write outcome `_dlqWriteOk` being logged only; then
commit the offset iff the handler succeeded or a DLQ is configured. -/
def messageWorker (retryMax : Nat) (dlqTopic : String) (topic : String)
    (payload : P) (beh : Nat → AttemptSpec E) (_dlqWriteOk : Bool) :
    WorkerOutcome P E :=
  let r := runLoop retryMax beh 1
  let dlqConfigured : Bool := dlqTopic ≠ ""
  { loop := r
    dlqWrites :=
      if r.finalErr.isSome ∧ dlqConfigured then
        [{ topic := dlqTopic
           value := payload
           headers := [(sourceTopicKey, topic)] }]
      else []
    committed := r.finalErr.isNone || dlqConfigured }

/-- Embedding of `backoffWithJitter` over integer nanoseconds: a
non-positive minimum defaults to 50 ms, a maximum below the minimum is
raised to it, the exponential base `min * 2^(attempt-1)` is clamped at
the maximum, and the jitter drawn by `rand.Int63n(int64(exp)/2)` (the
parameter `jitter`) is subtracted. -/
def backoffWithJitter (min max : Int) (attempt : Nat) (jitter : Int) : Int :=
  let m := if min ≤ 0 then 50000000 else min
  let M := if max < m then m else max
  let exp := m * 2 ^ (attempt - 1)
  let expc := if exp > M then M else exp
  expc - jitter

end Consumer

/-! ## Hooks: consumer lifecycle hook chain (pkg/queue, `HookChain`) -/

namespace Hooks

/-- Behaviour of one hook's `BeforeHandle` invocation: it either panics
(with a panic description) or returns a possibly modified
(ctx, message, data) triple together with an optional error. -/
inductive BeforeBeh (C M D E : Type) where
  | panics (info : String)
  | ret (c : C) (m : M) (d : D) (err : Option E)

/-- A hook in the chain. `before` gives its `BeforeHandle` behaviour;
`afterPanics` and `onErrorPanics` say whether its `AfterHandle` and
`OnError` bodies panic (they have no other observable output). -/
structure Hook (C M D E : Type) where
  before : C → M → D → BeforeBeh C M D E
  afterPanics : Bool
  onErrorPanics : Bool

/-- Errors surfaced by the chain: an error returned by a hook, or the
`HookError{Code: "ERR_PANIC"}` produced when a recovered panic is
converted to an error. -/
inductive HookErr (E : Type) where
  | user (e : E)
  | panicRecovered (info : String)
  deriving Repr, DecidableEq

/-- Observable hook invocations performed by the chain, identified by the
hook's position in the chain. -/
inductive HookEvent (E : Type) where
  | onErrorCalled (idx : Nat) (err : HookErr E)
  | afterCalled (idx : Nat)
  deriving Repr, DecidableEq

/-- Embedding of `NewHookChain`: nil hooks are filtered out. -/
def newHookChain (hooks : List (Option (Hook C M D E))) :
    List (Hook C M D E) :=
  hooks.filterMap id

/-- The `OnError` fan-out loop: `safeOnError` is invoked for each of the
`n` hooks of the chain in registration order (a panicking `OnError` body
is recovered and swallowed, so every hook is reached). -/
def onErrorFanOut (n : Nat) (err : HookErr E) : List (HookEvent E) :=
  (List.range n).map fun i => HookEvent.onErrorCalled i err

/-- Embedding of the loop body of `HookChain.BeforeHandle` on the
remaining hooks: a panic inside a hook is recovered and converted to
`panicRecovered`; any error notifies `OnError` of all `total` hooks of
the chain and returns the pre-failure triple together with the error;
otherwise the hook's output triple is threaded into the next hook. -/
def beforeGo (total : Nat) :
    List (Hook C M D E) → C → M → D →
    (C × M × D) × Option (HookErr E) × List (HookEvent E)
  | [], c, m, d => ((c, m, d), none, [])
  | h :: rest, c, m, d =>
    match h.before c m d with
    | BeforeBeh.panics info =>
      ((c, m, d), some (HookErr.panicRecovered info),
        onErrorFanOut total (HookErr.panicRecovered info))
    | BeforeBeh.ret _ _ _ (some e) =>
      ((c, m, d), some (HookErr.user e), onErrorFanOut total (HookErr.user e))
    | BeforeBeh.ret c' m' d' none => beforeGo total rest c' m' d'

/-- Embedding of `HookChain.BeforeHandle`: returns the final (ctx,
message, data) triple, the error handed to the caller (none on success),
and the `OnError` notifications performed. -/
def chainBeforeHandle (hooks : List (Hook C M D E)) (c : C) (m : M) (d : D) :
    (C × M × D) × Option (HookErr E) × List (HookEvent E) :=
  beforeGo hooks.length hooks c m d

/-- Embedding of the downward loop of `HookChain.AfterHandle`
(`for i := len-1; i >= 0; i--`): `safeAfter` recovers any panic, so the
loop reaches every hook. -/
def chainAfterGo (E : Type) : Nat → List (HookEvent E)
  | 0 => []
  | i + 1 => HookEvent.afterCalled i :: chainAfterGo E i

/-- Embedding of `HookChain.AfterHandle`: the hooks are invoked in
reverse registration order, every one regardless of panics. -/
def chainAfterHandle (E : Type) (hooks : List (Hook C M D E)) :
    List (HookEvent E) :=
  chainAfterGo E hooks.length

/-- Embedding of `HookChain.OnError`: notify every hook in order. -/
def chainOnError (hooks : List (Hook C M D E)) (err : HookErr E) :
    List (HookEvent E) :=
  onErrorFanOut hooks.length err

/-- A well-behaved hook whose `BeforeHandle` applies the pure function
`f` to the (ctx, message, data) triple and returns no error. -/
def pureHook (f : C × M × D → C × M × D) : Hook C M D E :=
  { before := fun c m d =>
      let r := f (c, m, d)
      BeforeBeh.ret r.1 r.2.1 r.2.2 none
    afterPanics := false, onErrorPanics := false }

/-- A hook whose `BeforeHandle` returns the error `e` (together with an
arbitrary output triple `g`, which the chain must discard). -/
def errHook (g : C × M × D → C × M × D) (e : E) : Hook C M D E :=
  { before := fun c m d =>
      let r := g (c, m, d)
      BeforeBeh.ret r.1 r.2.1 r.2.2 (some e)
    afterPanics := false, onErrorPanics := false }

/-- A thoroughly misbehaving hook: every method panics. -/
def panicHook (info : String) : Hook C M D E :=
  { before := fun _ _ _ => BeforeBeh.panics info
    afterPanics := true, onErrorPanics := true }

/-- Threading of a list of pure transformations through a triple, in
order. -/
def threadAll (fs : List (C × M × D → C × M × D)) (t : C × M × D) :
    C × M × D :=
  fs.foldl (fun acc f => f acc) t

end Hooks

/-! ## Sample values used by concrete witnesses -/

/-- Sample origin topic for concrete runs. -/
def sampleTopic : String := "rt_ticks"

/-- Sample dead-letter topic (non-empty, so a DLQ is configured). -/
def sampleDlqTopic : String := "rt_ticks_dlq"

/-- Sample trade symbol for concrete runs. -/
def sampleSymbol : String := "BTCUSDT"

/-- Sample timeframe strings. -/
def tf1s : String := "1s"

/-- Sample timeframe string for one minute. -/
def tf1m : String := "1m"

/-- Sample timeframe string for five minutes. -/
def tf5m : String := "5m"

/-- Downstream behaviour that rejects the first two calls and accepts all
later ones. -/
def rejectTwice : Nat → Bool := fun i => decide (2 ≤ i)

/-- A candle whose only relevant field is its close price; the other
fields are zero-valued. -/
def Features.candleOfClose [LinearOrderedField α] (close : α) :
    Features.Candle α :=
  { bucket := 0, symbol := "", openPrice := 0, high := 0, low := 0,
    close := close, volume := 0, orgID := "" }

/-- The empty topic name, i.e. no DLQ configured. -/
def emptyTopic : String := ""

/-! ## Theorems -/

/-- Helper: `ComputeLogReturns` on a list of at least two candles peels
off the head pair. -/
theorem computeLogReturns_cons [LinearOrderedField α] (lg : α → α)
    (a b : Features.Candle α) (rest : List (Features.Candle α)) :
    Features.ComputeLogReturns lg (a :: b :: rest) =
      (if a.close ≤ 0 ∨ b.close ≤ 0 then 0 else lg (b.close / a.close)) ::
        Features.ComputeLogReturns lg (b :: rest) := by
  cases rest with
  | nil => simp [Features.ComputeLogReturns]
  | cons c cs =>
    simp only [Features.ComputeLogReturns, List.tail_cons, List.zip_cons_cons,
      List.map_cons, List.length_cons]
    rw [if_neg (show ¬(cs.length + 1 + 1 + 1 < 2) by omega),
      if_neg (show ¬(cs.length + 1 + 1 < 2) by omega)]

/-- Helper: the length of the log-returns series is one less than the
candle count (truncated at zero). -/
theorem computeLogReturns_length [LinearOrderedField α] (lg : α → α) :
    ∀ (candles : List (Features.Candle α)),
      (Features.ComputeLogReturns lg candles).length = candles.length - 1
  | [] => by simp [Features.ComputeLogReturns]
  | [a] => by simp [Features.ComputeLogReturns]
  | a :: b :: rest => by
    rw [computeLogReturns_cons]
    simp [computeLogReturns_length lg (b :: rest)]

/-- Helper: elementwise description of `ComputeLogReturns`: entry `i` is
built from candles `i` and `i+1`. -/
theorem computeLogReturns_get [LinearOrderedField α] (lg : α → α) :
    ∀ (candles : List (Features.Candle α)) (i : Nat),
      (Features.ComputeLogReturns lg candles).get? i =
        (candles.get? i).bind fun p => (candles.get? (i + 1)).map fun c =>
          if p.close ≤ 0 ∨ c.close ≤ 0 then 0 else lg (c.close / p.close)
  | [], i => by simp [Features.ComputeLogReturns]
  | [a], i => by cases i <;> simp [Features.ComputeLogReturns]
  | a :: b :: rest, i => by
    rw [computeLogReturns_cons]
    cases i with
    | zero => simp
    | succ j => simpa using computeLogReturns_get lg (b :: rest) j

/-- C8: for every candle list, `ComputeLogReturns` has length
`max 0 (len − 1)`; entry `i` is `ln(Close_{i+1}/Close_i)` when both closes
are positive and `0` when either is ≤ 0; and for closes `[100, 110, 121]`
it returns two entries, both `ln 1.1`. -/
theorem C8_compute_log_returns :
    (∀ (candles : List (Features.Candle ℝ)),
      (Features.ComputeLogReturns Real.log candles).length = candles.length - 1)
    ∧ (∀ (candles : List (Features.Candle ℝ)) (i : Nat),
      (Features.ComputeLogReturns Real.log candles).get? i =
        (candles.get? i).bind fun p => (candles.get? (i + 1)).map fun c =>
          if p.close ≤ 0 ∨ c.close ≤ 0 then 0 else Real.log (c.close / p.close))
    ∧ Features.ComputeLogReturns Real.log
        [Features.candleOfClose 100, Features.candleOfClose 110,
         Features.candleOfClose 121] = [Real.log 1.1, Real.log 1.1] := by
  refine ⟨computeLogReturns_length Real.log, computeLogReturns_get Real.log, ?_⟩
  rw [computeLogReturns_cons, computeLogReturns_cons]
  have h1 : ((110 : ℝ) / 100) = 1.1 := by norm_num
  have h2 : ((121 : ℝ) / 110) = 1.1 := by norm_num
  simp [Features.ComputeLogReturns, Features.candleOfClose, h1, h2]

/-- C10: `MemoryCache.DeleteByPattern` ignores its pattern, resets both
the data map and the access map to empty, returns a nil error, and any
subsequent `Get` reports a cache miss. -/
theorem C10_delete_by_pattern_wipes (V : Type)
    (st : Cache.MemoryCacheState V) (pattern : String) :
    (Cache.deleteByPattern st pattern).2 = none ∧
    (Cache.deleteByPattern st pattern).1.data = (fun _ => none) ∧
    (Cache.deleteByPattern st pattern).1.access = (fun _ => none) ∧
    ∀ (key : String) (now : Int),
      (Cache.get (Cache.deleteByPattern st pattern).1 now key).1 =
        Except.error Cache.CacheErr.cacheMiss :=
  ⟨rfl, rfl, rfl, fun _ _ => rfl⟩

/-- Helper: the source's clamp `if v < 0 then 0 else v` is `max 0 v`. -/
theorem ite_neg_clamp_eq_max (v : ℝ) : (if v < 0 then (0 : ℝ) else v) = max 0 v := by
  rcases lt_or_le v 0 with h | h
  · rw [if_pos h, max_eq_left h.le]
  · rw [if_neg (not_lt.mpr h), max_eq_right h]

/-- C9: `RealizedVolatility` equals
`sqrt(max 0 ((Σr² − W·μ²)/(W−1)) · barsPerYear)` over the last `W`
returns, is `0` whenever `W ≤ 1` or fewer than `W` returns exist (in
particular a single candle gives empty returns, hence volatility 0), is
never negative, evaluates to `sqrt 70.08 ≈ 8.37` on the documented
scenario, and `BarsPerYearForTF` maps 1s/1m/5m to 31,536,000 / 525,600 /
105,120. -/
theorem C9_realized_volatility :
    (∀ (rs : List ℝ) (W : Nat) (bpy : ℝ), W ≤ 1 ∨ rs.length < W →
      Features.RealizedVolatility Real.sqrt rs W bpy = 0)
    ∧ (∀ (c : Features.Candle ℝ), Features.ComputeLogReturns Real.log [c] = [])
    ∧ (∀ (rs : List ℝ) (W : Nat) (bpy : ℝ), 1 < W → W ≤ rs.length →
      Features.RealizedVolatility Real.sqrt rs W bpy =
        Real.sqrt (max 0
          ((((rs.drop (rs.length - W)).map fun r => r ^ 2).sum -
            (W : ℝ) * ((rs.drop (rs.length - W)).sum / (W : ℝ)) ^ 2) /
            ((W : ℝ) - 1)) * bpy))
    ∧ (∀ (rs : List ℝ) (W : Nat) (bpy : ℝ),
      0 ≤ Features.RealizedVolatility Real.sqrt rs W bpy)
    ∧ (Features.RealizedVolatility Real.sqrt [0.01, -0.01, 0.01, -0.01] 4 525600 =
        Real.sqrt 70.08
      ∧ 8.37 < Real.sqrt (70.08 : ℝ) ∧ Real.sqrt (70.08 : ℝ) < 8.38)
    ∧ ((Features.BarsPerYearForTF tf1s : ℝ) = 31536000
      ∧ (Features.BarsPerYearForTF tf1m : ℝ) = 525600
      ∧ (Features.BarsPerYearForTF tf5m : ℝ) = 105120) := by
  refine ⟨?_, ?_, ?_, ?_, ⟨?_, ?_, ?_⟩, ?_, ?_, ?_⟩
  · intro rs W bpy h
    simp only [Features.RealizedVolatility]
    rw [if_pos h]
  · intro c
    simp [Features.ComputeLogReturns]
  · intro rs W bpy h1 h2
    simp only [Features.RealizedVolatility]
    rw [if_neg (by omega)]
    rw [ite_neg_clamp_eq_max]
    simp only [pow_two]
    apply congrArg
    have hm : ∀ X Y : ℝ, X = Y → max 0 X * bpy = max 0 Y * bpy := by
      intro X Y h
      rw [h]
    apply hm
    ring
  · intro rs W bpy
    simp only [Features.RealizedVolatility]
    split
    · exact le_refl 0
    · exact Real.sqrt_nonneg _
  · simp only [Features.RealizedVolatility]
    norm_num [List.sum_cons, List.sum_nil]
  · exact (Real.lt_sqrt (by norm_num)).mpr (by norm_num)
  · exact (Real.sqrt_lt' (by norm_num)).mpr (by norm_num)
  · norm_num [Features.BarsPerYearForTF, tf1s]
  · norm_num [Features.BarsPerYearForTF, tf1m]
  · norm_num [Features.BarsPerYearForTF, tf5m]

/-- Witness for C9: the zero case at `W = 4` on an empty series, and the
formula case at `W = 2` on `[2, 4]`. -/
theorem C9_realized_volatility_witness :
    (((4 : Nat) ≤ 1 ∨ ([] : List ℝ).length < 4) ∧
      Features.RealizedVolatility Real.sqrt ([] : List ℝ) 4 525600 = 0) ∧
    ((1 < 2 ∧ 2 ≤ ([2, 4] : List ℝ).length) ∧
      Features.RealizedVolatility Real.sqrt ([2, 4] : List ℝ) 2 1 =
        Real.sqrt 2) := by
  refine ⟨⟨Or.inr (by norm_num),
      C9_realized_volatility.1 [] 4 525600 (Or.inr (by norm_num))⟩,
    ⟨⟨by norm_num, by norm_num⟩, ?_⟩⟩
  have h := C9_realized_volatility.2.2.1 [2, 4] 2 1 (by norm_num) (by norm_num)
  rw [h]
  norm_num [List.sum_cons, List.sum_nil]

/-- C7: the limiter creates a bucket full at the given capacity on first
observation; `Allow` returns true iff the refilled bucket holds at least
one token, decrementing it by one exactly on success; with capacity 2 and
rate 1/s two immediate calls succeed, a third at the same instant fails,
and a call 1 s later succeeds; and after idling at least
`capacity / refillRate` seconds a bucket (with non-negative tokens) is
full again. -/
theorem C7_token_bucket :
    (∀ (now cap rate : ℚ),
      RateLimit.allow none now cap rate =
        RateLimit.allow
          (some { tokens := cap, capacity := cap, refillRate := rate, last := now })
          now cap rate)
    ∧ (∀ (b : RateLimit.Bucket) (now cap rate : ℚ),
      ((RateLimit.allow (some b) now cap rate).1 = true ↔
        1 ≤ (RateLimit.refill b now).tokens)
      ∧ ((RateLimit.allow (some b) now cap rate).1 = true →
        (RateLimit.allow (some b) now cap rate).2.tokens =
          (RateLimit.refill b now).tokens - 1)
      ∧ ((RateLimit.allow (some b) now cap rate).1 = false →
        (RateLimit.allow (some b) now cap rate).2 = RateLimit.refill b now))
    ∧ ((RateLimit.allow none 0 2 1).1 = true
      ∧ (RateLimit.allow (some (RateLimit.allow none 0 2 1).2) 0 2 1).1 = true
      ∧ (RateLimit.allow (some (RateLimit.allow
          (some (RateLimit.allow none 0 2 1).2) 0 2 1).2) 0 2 1).1 = false
      ∧ (RateLimit.allow (some (RateLimit.allow (some (RateLimit.allow
          (some (RateLimit.allow none 0 2 1).2) 0 2 1).2) 0 2 1).2) 1 2 1).1 = true)
    ∧ (∀ (b : RateLimit.Bucket) (now : ℚ),
      0 ≤ b.tokens → 0 < b.refillRate → 0 < b.capacity →
      b.capacity / b.refillRate ≤ now - b.last →
      (RateLimit.refill b now).tokens = b.capacity) := by
  refine ⟨fun now cap rate => rfl, ?_, ?_, ?_⟩
  · intro b now cap rate
    simp only [RateLimit.allow]
    split_ifs with h
    · exact ⟨iff_of_true rfl h, fun _ => rfl, fun hfalse => by simp at hfalse⟩
    · exact ⟨iff_of_false (by simp) h, fun htrue => by simp at htrue,
        fun _ => rfl⟩
  · norm_num [RateLimit.allow, RateLimit.refill]
  · intro b now ht hr hc hd
    have helapsed : (0 : ℚ) < now - b.last := lt_of_lt_of_le (div_pos hc hr) hd
    have hmul : b.capacity ≤ (now - b.last) * b.refillRate := by
      rw [div_le_iff₀ hr] at hd
      exact hd
    simp only [RateLimit.refill]
    rw [if_pos helapsed]
    split_ifs with h
    · rfl
    · push_neg at h
      simp only
      linarith

/-- Witness for C7: a drained bucket of capacity 2 and rate 1/s refills
to capacity after idling 2 s, and a successful `Allow` on a full bucket
decrements by one. -/
theorem C7_token_bucket_witness :
    (((0 : ℚ) ≤ 0 ∧ (0 : ℚ) < 1 ∧ (0 : ℚ) < 2 ∧ (2 : ℚ) / 1 ≤ 2 - 0) ∧
      (RateLimit.refill
        { tokens := 0, capacity := 2, refillRate := 1, last := 0 } 2).tokens = 2) ∧
    ((RateLimit.allow
        (some { tokens := 2, capacity := 2, refillRate := 1, last := 0 }) 0 2 1).1 = true ∧
      (RateLimit.allow
        (some { tokens := 2, capacity := 2, refillRate := 1, last := 0 }) 0 2 1).2.tokens =
        (RateLimit.refill
          { tokens := 2, capacity := 2, refillRate := 1, last := 0 } 0).tokens - 1) := by
  refine ⟨⟨⟨le_refl 0, by norm_num, by norm_num, by norm_num⟩, ?_⟩, ?_, ?_⟩
  · exact C7_token_bucket.2.2.2
      { tokens := 0, capacity := 2, refillRate := 1, last := 0 } 2
      (by norm_num) (by norm_num) (by norm_num) (by norm_num)
  · norm_num [RateLimit.allow, RateLimit.refill]
  · exact (C7_token_bucket.2.1
      { tokens := 2, capacity := 2, refillRate := 1, last := 0 } 0 2 1).2.1
      (by norm_num [RateLimit.allow, RateLimit.refill])

/-- C6: for positive `backoffMin ≤ backoffMax` and any attempt ≥ 1, the
consumer's backoff sleep equals `min(backoffMin·2^(attempt−1), backoffMax)
− jitter` where the jitter drawn by `rand.Int63n` satisfies
`0 ≤ jitter < exp/2`; hence it never exceeds `backoffMax` and is strictly
greater than `backoffMin/2`. The hypothesis `_hof` confines the statement
to where the Go `int64` multiplication does not overflow, which is where
the unbounded-integer embedding coincides with the source. -/
theorem C6_backoff_with_jitter (backoffMin backoffMax jitter : Int)
    (attempt : Nat) (hmin : 0 < backoffMin) (hminmax : backoffMin ≤ backoffMax)
    (_hatt : 1 ≤ attempt)
    (_hof : backoffMin * 2 ^ (attempt - 1) < 2 ^ 63)
    (hj0 : 0 ≤ jitter)
    (hj : jitter < min (backoffMin * 2 ^ (attempt - 1)) backoffMax / 2) :
    Consumer.backoffWithJitter backoffMin backoffMax attempt jitter =
      min (backoffMin * 2 ^ (attempt - 1)) backoffMax - jitter
    ∧ Consumer.backoffWithJitter backoffMin backoffMax attempt jitter ≤ backoffMax
    ∧ backoffMin / 2 <
        Consumer.backoffWithJitter backoffMin backoffMax attempt jitter := by
  have h2pos : (0 : Int) < 2 ^ (attempt - 1) := pow_pos (by norm_num) _
  have h2p : (1 : Int) ≤ 2 ^ (attempt - 1) := by omega
  have hE : backoffMin ≤ backoffMin * 2 ^ (attempt - 1) :=
    le_mul_of_one_le_right hmin.le h2p
  simp only [Consumer.backoffWithJitter]
  rw [if_neg (not_le.mpr hmin), if_neg (not_lt.mpr hminmax)]
  have hexpc : (if backoffMin * 2 ^ (attempt - 1) > backoffMax then backoffMax
      else backoffMin * 2 ^ (attempt - 1)) =
      min (backoffMin * 2 ^ (attempt - 1)) backoffMax := by
    rcases le_or_lt (backoffMin * 2 ^ (attempt - 1)) backoffMax with h | h
    · rw [if_neg (not_lt.mpr h), min_eq_left h]
    · rw [if_pos h, min_eq_right h.le]
  rw [hexpc]
  have hminle : backoffMin ≤ min (backoffMin * 2 ^ (attempt - 1)) backoffMax :=
    le_min hE hminmax
  have hmr : min (backoffMin * 2 ^ (attempt - 1)) backoffMax ≤ backoffMax :=
    min_le_right _ _
  refine ⟨rfl, ?_, ?_⟩ <;> omega

/-- Witness for C6: the default configuration (50 ms minimum, 2 s
maximum) at attempt 2 with a jitter of 7 ns. -/
theorem C6_backoff_with_jitter_witness :
    ((0 : Int) < 50000000 ∧ (50000000 : Int) ≤ 2000000000 ∧ (1 : Nat) ≤ 2
      ∧ (50000000 : Int) * 2 ^ (2 - 1) < 2 ^ 63 ∧ (0 : Int) ≤ 7
      ∧ (7 : Int) < min (50000000 * 2 ^ (2 - 1)) 2000000000 / 2) ∧
    (Consumer.backoffWithJitter 50000000 2000000000 2 7 =
        min ((50000000 : Int) * 2 ^ (2 - 1)) 2000000000 - 7
      ∧ Consumer.backoffWithJitter 50000000 2000000000 2 7 ≤ 2000000000
      ∧ (50000000 : Int) / 2 < Consumer.backoffWithJitter 50000000 2000000000 2 7) :=
  ⟨⟨by decide, by decide, by decide, by decide, by decide, by decide⟩,
    C6_backoff_with_jitter 50000000 2000000000 7 2 (by decide) (by decide)
      (by decide) (by decide) (by decide) (by decide)⟩

/-- Helper: the retry loop calls the handler at most once more than the
remaining retry budget, whatever the hook/handler behaviour. -/
theorem runLoop_calls_le (retryMax : Nat) (beh : Nat → Consumer.AttemptSpec E) :
    ∀ (fuel : Nat) (attempt : Nat), retryMax + 1 - attempt ≤ fuel →
      (Consumer.runLoop retryMax beh attempt).handlerCalls ≤
        1 + (retryMax + 1 - attempt) := by
  intro fuel
  induction fuel with
  | zero =>
    intro attempt h
    rw [Consumer.runLoop]
    cases hb : beh attempt with
    | hookErr e => simp
    | handlerOk => simp
    | handlerErr e =>
      simp only
      rw [dif_pos (by omega)]
      simp
  | succ n ih =>
    intro attempt h
    rw [Consumer.runLoop]
    cases hb : beh attempt with
    | hookErr e => simp
    | handlerOk => simp
    | handlerErr e =>
      simp only
      split
      · simp
      · have := ih (attempt + 1) (by omega)
        dsimp only
        omega

/-- Helper: when the handler fails at every attempt, the retry loop exits
with that error. -/
theorem runLoop_handlerErr_finalErr (retryMax : Nat) (e : E) :
    ∀ (fuel : Nat) (attempt : Nat), retryMax + 1 - attempt ≤ fuel →
      (Consumer.runLoop retryMax
        (fun _ => Consumer.AttemptSpec.handlerErr e) attempt).finalErr = some e := by
  intro fuel
  induction fuel with
  | zero =>
    intro attempt h
    rw [Consumer.runLoop]
    simp only
    rw [dif_pos (by omega)]
  | succ n ih =>
    intro attempt h
    rw [Consumer.runLoop]
    simp only
    split
    · rfl
    · have := ih (attempt + 1) (by omega)
      dsimp only
      exact this

/-- C1: the worker invokes the handler at most `RetryMax + 1` times for
any message; with `RetryMax = 2`, a DLQ configured and a handler failing
on every attempt there are exactly 3 handler invocations, exactly one DLQ
write carrying the original payload and a `source_topic` header naming
the origin topic, and the offset is committed whatever the DLQ write
outcome; with no DLQ configured the offset is not committed after retry
exhaustion. -/
theorem C1_consumer_retry_dlq_commit :
    (∀ (E P : Type) (retryMax : Nat) (dlqTopic topic : String) (payload : P)
        (beh : Nat → Consumer.AttemptSpec E) (ok : Bool),
      (Consumer.messageWorker retryMax dlqTopic topic payload beh ok).loop.handlerCalls ≤
        retryMax + 1)
    ∧ (∀ (E P : Type) (e : E) (dlqTopic topic : String) (payload : P) (ok : Bool),
      dlqTopic ≠ "" →
      (Consumer.messageWorker 2 dlqTopic topic payload
          (fun _ => Consumer.AttemptSpec.handlerErr e) ok).loop.handlerCalls = 3
      ∧ (Consumer.messageWorker 2 dlqTopic topic payload
          (fun _ => Consumer.AttemptSpec.handlerErr e) ok).dlqWrites =
          [{ topic := dlqTopic, value := payload,
             headers := [(Consumer.sourceTopicKey, topic)] }]
      ∧ (Consumer.messageWorker 2 dlqTopic topic payload
          (fun _ => Consumer.AttemptSpec.handlerErr e) ok).committed = true)
    ∧ (∀ (E P : Type) (e : E) (topic : String) (payload : P) (retryMax : Nat)
        (ok : Bool),
      (Consumer.messageWorker retryMax emptyTopic topic payload
          (fun _ => Consumer.AttemptSpec.handlerErr e) ok).committed = false) := by
  refine ⟨?_, ?_, ?_⟩
  · intro E P retryMax dlqTopic topic payload beh ok
    have := runLoop_calls_le retryMax beh (retryMax + 1) 1 (by omega)
    simp only [Consumer.messageWorker]
    omega
  · intro E P e dlqTopic topic payload ok h
    simp [Consumer.messageWorker, Consumer.runLoop, h]
  · intro E P e topic payload retryMax ok
    have := runLoop_handlerErr_finalErr retryMax e (retryMax + 1) 1 (by omega)
    simp [Consumer.messageWorker, emptyTopic, this]

/-- Witness for C1: the DLQ scenario at a concrete non-empty DLQ topic
for both outcomes of the DLQ write. -/
theorem C1_consumer_retry_dlq_commit_witness :
    (sampleDlqTopic ≠ "") ∧
    ((Consumer.messageWorker 2 sampleDlqTopic sampleTopic ()
        (fun _ => Consumer.AttemptSpec.handlerErr ()) true).loop.handlerCalls = 3
      ∧ (Consumer.messageWorker 2 sampleDlqTopic sampleTopic ()
          (fun _ => Consumer.AttemptSpec.handlerErr ()) true).dlqWrites =
          [{ topic := sampleDlqTopic, value := (),
             headers := [(Consumer.sourceTopicKey, sampleTopic)] }]
      ∧ (Consumer.messageWorker 2 sampleDlqTopic sampleTopic ()
          (fun _ => Consumer.AttemptSpec.handlerErr ()) true).committed = true) ∧
    ((Consumer.messageWorker 2 sampleDlqTopic sampleTopic ()
        (fun _ => Consumer.AttemptSpec.handlerErr ()) false).committed = true) :=
  ⟨by decide,
    C1_consumer_retry_dlq_commit.2.1 Unit Unit () sampleDlqTopic sampleTopic ()
      true (by decide),
    (C1_consumer_retry_dlq_commit.2.1 Unit Unit () sampleDlqTopic sampleTopic ()
      false (by decide)).2.2⟩

/-- C3 counterexample: with `RetryMax = 2`, a configured DLQ and a
`BeforeHandle` chain that always errors, the worker performs a single
attempt — no handler call, no in-loop `OnError`/backoff — and proceeds
directly to the DLQ write and offset commit, contradicting the claim
that a hook error is retried until attempts exceed `RetryMax`. -/
theorem C3_hook_error_counterexample :
    (Consumer.messageWorker 2 sampleDlqTopic sampleTopic ()
        (fun _ => Consumer.AttemptSpec.hookErr ()) true).loop.attempts = 1
    ∧ (Consumer.messageWorker 2 sampleDlqTopic sampleTopic ()
        (fun _ => Consumer.AttemptSpec.hookErr ()) true).loop.handlerCalls = 0
    ∧ (Consumer.messageWorker 2 sampleDlqTopic sampleTopic ()
        (fun _ => Consumer.AttemptSpec.hookErr ()) true).loop.onErrorAttempts = []
    ∧ (Consumer.messageWorker 2 sampleDlqTopic sampleTopic ()
        (fun _ => Consumer.AttemptSpec.hookErr ()) true).dlqWrites ≠ []
    ∧ (Consumer.messageWorker 2 sampleDlqTopic sampleTopic ()
        (fun _ => Consumer.AttemptSpec.hookErr ()) true).committed = true := by
  simp [Consumer.messageWorker, Consumer.runLoop, sampleDlqTopic, sampleTopic]

/-- C3 amended: when the `BeforeHandle` hook chain errors on the first
attempt, the handler is skipped and the retry loop exits immediately:
after exactly one attempt, with no in-loop `OnError`/backoff, the message
takes the error path — DLQ write (when configured) with the original
payload and `source_topic` header, and commit iff a DLQ is configured. -/
theorem C3_hook_error_single_attempt (E P : Type) (e : E) (retryMax : Nat)
    (dlqTopic topic : String) (payload : P) (ok : Bool)
    (beh : Nat → Consumer.AttemptSpec E)
    (h1 : beh 1 = Consumer.AttemptSpec.hookErr e) :
    (Consumer.messageWorker retryMax dlqTopic topic payload beh ok).loop.attempts = 1
    ∧ (Consumer.messageWorker retryMax dlqTopic topic payload beh ok).loop.handlerCalls = 0
    ∧ (Consumer.messageWorker retryMax dlqTopic topic payload beh ok).loop.finalErr = some e
    ∧ (Consumer.messageWorker retryMax dlqTopic topic payload beh ok).loop.onErrorAttempts = []
    ∧ (dlqTopic ≠ "" →
      (Consumer.messageWorker retryMax dlqTopic topic payload beh ok).dlqWrites =
        [{ topic := dlqTopic, value := payload,
           headers := [(Consumer.sourceTopicKey, topic)] }])
    ∧ (Consumer.messageWorker retryMax dlqTopic topic payload beh ok).committed =
        decide (dlqTopic ≠ "") := by
  rw [Consumer.messageWorker, Consumer.runLoop, h1]
  refine ⟨rfl, rfl, rfl, rfl, fun h => ?_, ?_⟩
  · simp [h]
  · simp

/-- Witness for C3 amended: a persistently erroring hook at `RetryMax =
2` with a configured DLQ. -/
theorem C3_hook_error_single_attempt_witness :
    ((fun (_ : Nat) => Consumer.AttemptSpec.hookErr ()) 1 =
      Consumer.AttemptSpec.hookErr ()) ∧
    ((Consumer.messageWorker 2 sampleDlqTopic sampleTopic ()
        (fun _ => Consumer.AttemptSpec.hookErr ()) true).loop.attempts = 1
      ∧ (Consumer.messageWorker 2 sampleDlqTopic sampleTopic ()
          (fun _ => Consumer.AttemptSpec.hookErr ()) true).loop.handlerCalls = 0
      ∧ (Consumer.messageWorker 2 sampleDlqTopic sampleTopic ()
          (fun _ => Consumer.AttemptSpec.hookErr ()) true).loop.finalErr = some ()
      ∧ (Consumer.messageWorker 2 sampleDlqTopic sampleTopic ()
          (fun _ => Consumer.AttemptSpec.hookErr ()) true).loop.onErrorAttempts = []
      ∧ (sampleDlqTopic ≠ "" →
        (Consumer.messageWorker 2 sampleDlqTopic sampleTopic ()
          (fun _ => Consumer.AttemptSpec.hookErr ()) true).dlqWrites =
          [{ topic := sampleDlqTopic, value := (),
             headers := [(Consumer.sourceTopicKey, sampleTopic)] }])
      ∧ (Consumer.messageWorker 2 sampleDlqTopic sampleTopic ()
          (fun _ => Consumer.AttemptSpec.hookErr ()) true).committed =
          decide (sampleDlqTopic ≠ "")) :=
  ⟨rfl, C3_hook_error_single_attempt Unit Unit () 2 sampleDlqTopic sampleTopic
    () true (fun _ => Consumer.AttemptSpec.hookErr ()) rfl⟩

/-- Helper: a prefix of well-behaved hooks threads the triple through in
registration order with no error and no notification. -/
theorem beforeGo_pure {C M D E : Type} (total : Nat) :
    ∀ (fs : List (C × M × D → C × M × D)) (c : C) (m : M) (d : D),
      Hooks.beforeGo total (fs.map (@Hooks.pureHook C M D E)) c m d =
        (Hooks.threadAll fs (c, m, d), none, []) := by
  intro fs
  induction fs with
  | nil => intro c m d; simp [Hooks.beforeGo, Hooks.threadAll]
  | cons f fs ih =>
    intro c m d
    simp only [List.map_cons, Hooks.beforeGo, Hooks.pureHook, Hooks.threadAll,
      List.foldl_cons]
    exact ih (f (c, m, d)).1 (f (c, m, d)).2.1 (f (c, m, d)).2.2

/-- Helper: the first erroring hook stops the chain with the pre-failure
triple, its error, and an `OnError` fan-out to all `total` hooks; later
hooks and the erroring hook's own output triple are discarded. -/
theorem beforeGo_err {C M D E : Type} (total : Nat) :
    ∀ (fs : List (C × M × D → C × M × D)) (g : C × M × D → C × M × D) (e : E)
      (rest : List (Hooks.Hook C M D E)) (c : C) (m : M) (d : D),
      Hooks.beforeGo total
          (fs.map (@Hooks.pureHook C M D E) ++ Hooks.errHook g e :: rest) c m d =
        (Hooks.threadAll fs (c, m, d), some (Hooks.HookErr.user e),
          Hooks.onErrorFanOut total (Hooks.HookErr.user e)) := by
  intro fs
  induction fs with
  | nil =>
    intro g e rest c m d
    simp [Hooks.beforeGo, Hooks.errHook, Hooks.threadAll]
  | cons f fs ih =>
    intro g e rest c m d
    simp only [List.map_cons, List.cons_append, Hooks.beforeGo, Hooks.pureHook,
      Hooks.threadAll, List.foldl_cons]
    exact ih g e rest (f (c, m, d)).1 (f (c, m, d)).2.1 (f (c, m, d)).2.2

/-- Helper: a panic inside a hook's `BeforeHandle` is recovered and
surfaces as the `ERR_PANIC` hook error, with the same stop-and-notify
behaviour as an ordinary error. -/
theorem beforeGo_panic {C M D E : Type} (total : Nat) :
    ∀ (fs : List (C × M × D → C × M × D)) (info : String)
      (rest : List (Hooks.Hook C M D E)) (c : C) (m : M) (d : D),
      Hooks.beforeGo total
          (fs.map (@Hooks.pureHook C M D E) ++ Hooks.panicHook info :: rest) c m d =
        (Hooks.threadAll fs (c, m, d),
          some (Hooks.HookErr.panicRecovered info),
          Hooks.onErrorFanOut total (Hooks.HookErr.panicRecovered info)) := by
  intro fs
  induction fs with
  | nil =>
    intro info rest c m d
    simp [Hooks.beforeGo, Hooks.panicHook, Hooks.threadAll]
  | cons f fs ih =>
    intro info rest c m d
    simp only [List.map_cons, List.cons_append, Hooks.beforeGo, Hooks.pureHook,
      Hooks.threadAll, List.foldl_cons]
    exact ih info rest (f (c, m, d)).1 (f (c, m, d)).2.1 (f (c, m, d)).2.2

/-- Helper: the downward `AfterHandle` loop visits indices in reverse
order. -/
theorem chainAfterGo_eq (E : Type) :
    ∀ (n : Nat), Hooks.chainAfterGo E n =
      (List.range n).reverse.map Hooks.HookEvent.afterCalled := by
  intro n
  induction n with
  | zero => simp [Hooks.chainAfterGo]
  | succ i ih => simp [Hooks.chainAfterGo, List.range_succ, ih]

/-- C2: the hook chain applies `BeforeHandle` in registration order
threading (ctx, message, payload) through; the first hook error (or
recovered hook panic, converted to the `ERR_PANIC` error) stops the
chain, notifies `OnError` of every hook in the chain with that error, and
is returned with the pre-failure triple; `AfterHandle` runs in reverse
registration order over every hook (panics are swallowed, which the
embedding bakes in per the source's `safeAfter`/`safeOnError`); and
`OnError` notifies every hook in order. -/
theorem C2_hook_chain (C M D E : Type) :
    (∀ (fs : List (C × M × D → C × M × D)) (c : C) (m : M) (d : D),
      Hooks.chainBeforeHandle (fs.map (@Hooks.pureHook C M D E)) c m d =
        (Hooks.threadAll fs (c, m, d), none, []))
    ∧ (∀ (fs : List (C × M × D → C × M × D)) (g : C × M × D → C × M × D)
        (e : E) (rest : List (Hooks.Hook C M D E)) (c : C) (m : M) (d : D),
      Hooks.chainBeforeHandle
          (fs.map (@Hooks.pureHook C M D E) ++ Hooks.errHook g e :: rest) c m d =
        (Hooks.threadAll fs (c, m, d), some (Hooks.HookErr.user e),
          Hooks.onErrorFanOut (fs.length + 1 + rest.length)
            (Hooks.HookErr.user e)))
    ∧ (∀ (fs : List (C × M × D → C × M × D)) (info : String)
        (rest : List (Hooks.Hook C M D E)) (c : C) (m : M) (d : D),
      Hooks.chainBeforeHandle
          (fs.map (@Hooks.pureHook C M D E) ++ Hooks.panicHook info :: rest) c m d =
        (Hooks.threadAll fs (c, m, d),
          some (Hooks.HookErr.panicRecovered info),
          Hooks.onErrorFanOut (fs.length + 1 + rest.length)
            (Hooks.HookErr.panicRecovered info)))
    ∧ (∀ (hooks : List (Hooks.Hook C M D E)),
      Hooks.chainAfterHandle E hooks =
        (List.range hooks.length).reverse.map Hooks.HookEvent.afterCalled)
    ∧ (∀ (hooks : List (Hooks.Hook C M D E)) (err : Hooks.HookErr E),
      Hooks.chainOnError hooks err =
        (List.range hooks.length).map fun i =>
          Hooks.HookEvent.onErrorCalled i err) := by
  refine ⟨?_, ?_, ?_, ?_, ?_⟩
  · intro fs c m d
    simp only [Hooks.chainBeforeHandle]
    exact beforeGo_pure _ fs c m d
  · intro fs g e rest c m d
    simp only [Hooks.chainBeforeHandle]
    rw [beforeGo_err]
    have hl : (fs.map (@Hooks.pureHook C M D E) ++
        Hooks.errHook g e :: rest).length = fs.length + 1 + rest.length := by
      simp
      omega
    rw [hl]
  · intro fs info rest c m d
    simp only [Hooks.chainBeforeHandle]
    rw [beforeGo_panic]
    have hl : (fs.map (@Hooks.pureHook C M D E) ++
        Hooks.panicHook info :: rest).length = fs.length + 1 + rest.length := by
      simp
      omega
    rw [hl]
  · intro hooks
    simp only [Hooks.chainAfterHandle]
    exact chainAfterGo_eq E hooks.length
  · intro hooks err
    simp only [Hooks.chainOnError, Hooks.onErrorFanOut]

/-- C4: the pipeline forwards a trade downstream only if it passed
validation (also after the optional transform) and the per-symbol gap
check admitted it; a validation failure returns the validation error and
forwards nothing; a throttled trade is dropped with a nil-error result
after recording the throttle counters; and for positive `maxRPS` the gap
check admits a trade iff its symbol was never seen or at least
`1s / maxRPS` (integer division, nanoseconds) elapsed since the last
accepted trade of that symbol. -/
theorem C4_pipeline_process_gate :
    (∀ (maxRPS : Int) (transform : Option (Pipeline.Trade → Pipeline.Trade))
        (downstreamOk : Bool) (cap : Nat) (buffer : List Pipeline.Trade)
        (lastSeen : String → Option Int) (t : Pipeline.Trade) (now : Int),
      (Pipeline.process maxRPS transform downstreamOk cap buffer lastSeen t now).forwarded = true →
        Pipeline.validateTrade t = none
        ∧ Pipeline.validateTrade (Pipeline.transformed transform t) = none
        ∧ (Pipeline.allow maxRPS lastSeen
            (Pipeline.transformed transform t).symbol now).1 = true)
    ∧ (∀ (maxRPS : Int) (transform : Option (Pipeline.Trade → Pipeline.Trade))
        (downstreamOk : Bool) (cap : Nat) (buffer : List Pipeline.Trade)
        (lastSeen : String → Option Int) (t : Pipeline.Trade) (now : Int)
        (e : Pipeline.ValidateErr),
      Pipeline.validateTrade t = some e →
        (Pipeline.process maxRPS transform downstreamOk cap buffer lastSeen t now).result =
          Pipeline.ProcessResult.invalid e
        ∧ (Pipeline.process maxRPS transform downstreamOk cap buffer lastSeen t now).forwarded = false
        ∧ (Pipeline.process maxRPS transform downstreamOk cap buffer lastSeen t now).lastSeen = lastSeen
        ∧ (Pipeline.process maxRPS transform downstreamOk cap buffer lastSeen t now).buffer = buffer)
    ∧ (∀ (maxRPS : Int) (transform : Option (Pipeline.Trade → Pipeline.Trade))
        (downstreamOk : Bool) (cap : Nat) (buffer : List Pipeline.Trade)
        (lastSeen : String → Option Int) (t : Pipeline.Trade) (now : Int),
      Pipeline.validateTrade t = none →
      Pipeline.validateTrade (Pipeline.transformed transform t) = none →
      (Pipeline.allow maxRPS lastSeen
        (Pipeline.transformed transform t).symbol now).1 = false →
        (Pipeline.process maxRPS transform downstreamOk cap buffer lastSeen t now).result =
          Pipeline.ProcessResult.throttledNil
        ∧ (Pipeline.process maxRPS transform downstreamOk cap buffer lastSeen t now).forwarded = false
        ∧ (Pipeline.process maxRPS transform downstreamOk cap buffer lastSeen t now).counters =
          [Pipeline.Counter.throttle,
            Pipeline.Counter.throttleSym (Pipeline.transformed transform t).symbol])
    ∧ (∀ (maxRPS : Int) (lastSeen : String → Option Int) (sym : String) (now : Int),
      0 < maxRPS →
      ((Pipeline.allow maxRPS lastSeen sym now).1 = true ↔
        lastSeen sym = none ∨
          ∃ last, lastSeen sym = some last ∧ 1000000000 / maxRPS ≤ now - last)) := by
  refine ⟨?_, ?_, ?_, ?_⟩
  · intro maxRPS transform downstreamOk cap buffer lastSeen t now
    simp only [Pipeline.process]
    cases hv : Pipeline.validateTrade t with
    | some e => simp
    | none =>
      cases transform with
      | none =>
        simp only
        split_ifs with h1 h2 h3 <;> simp_all [Pipeline.transformed]
      | some f =>
        cases hv1 : Pipeline.validateTrade (Pipeline.transformed (some f) t) with
        | some e => simp
        | none =>
          simp only
          split_ifs with h1 h2 h3 <;> simp_all
  · intro maxRPS transform downstreamOk cap buffer lastSeen t now e hv
    simp [Pipeline.process, hv]
  · intro maxRPS transform downstreamOk cap buffer lastSeen t now hv hv1 ha
    cases transform with
    | none =>
      simp only [Pipeline.process, hv]
      rw [if_pos ha]
      exact ⟨rfl, rfl, rfl⟩
    | some f =>
      simp only [Pipeline.process, hv]
      rw [hv1]
      simp only
      rw [if_pos ha]
      exact ⟨rfl, rfl, rfl⟩
  · intro maxRPS lastSeen sym now h
    simp only [Pipeline.allow]
    rw [if_neg (by omega)]
    cases hl : lastSeen sym with
    | none => simp
    | some last =>
      dsimp only
      split_ifs with hlt
      · simp only [Bool.false_eq_true, false_iff]
        intro hc
        rcases hc with hc | ⟨last2, hc2, hge⟩
        · simp at hc
        · simp only [Option.some.injEq] at hc2
          rw [← hc2] at hge
          linarith
      · simp only [true_iff]
        exact Or.inr ⟨last, rfl, not_lt.mp hlt⟩

/-- Witness for C4: a trade with timestamp 0 is rejected and not
forwarded; a valid trade whose symbol was accepted 1 ns ago under
`maxRPS = 20` is throttled to a nil result; the gap check at
`maxRPS = 20` is characterized. -/
theorem C4_pipeline_process_gate_witness :
    (Pipeline.validateTrade
        { symbol := sampleSymbol, timestamp := 0, price := 1, volume := 1 } =
        some Pipeline.ValidateErr.timestampInvalid
      ∧ (Pipeline.process 20 none true 1000 [] (fun _ => none)
          { symbol := sampleSymbol, timestamp := 0, price := 1, volume := 1 }
          1).forwarded = false)
    ∧ (Pipeline.validateTrade
        { symbol := sampleSymbol, timestamp := 1, price := 1, volume := 1 } = none
      ∧ Pipeline.validateTrade (Pipeline.transformed none
          { symbol := sampleSymbol, timestamp := 1, price := 1, volume := 1 }) = none
      ∧ (Pipeline.allow 20 (fun s => if s = sampleSymbol then some 0 else none)
          (Pipeline.transformed none
            { symbol := sampleSymbol, timestamp := 1, price := 1, volume := 1 }).symbol
          1).1 = false
      ∧ (Pipeline.process 20 none true 1000 []
          (fun s => if s = sampleSymbol then some 0 else none)
          { symbol := sampleSymbol, timestamp := 1, price := 1, volume := 1 }
          1).result = Pipeline.ProcessResult.throttledNil)
    ∧ ((0 : Int) < 20
      ∧ ((Pipeline.allow 20 (fun s => if s = sampleSymbol then some 0 else none)
          sampleSymbol 1).1 = true ↔
        (fun s => if s = sampleSymbol then some (0 : Int) else none) sampleSymbol = none ∨
          ∃ last,
            (fun s => if s = sampleSymbol then some (0 : Int) else none) sampleSymbol =
              some last ∧ 1000000000 / 20 ≤ 1 - last)) :=
  ⟨⟨by decide,
      ((C4_pipeline_process_gate.2.1 20 none true 1000 [] (fun _ => none)
        { symbol := sampleSymbol, timestamp := 0, price := 1, volume := 1 } 1
        Pipeline.ValidateErr.timestampInvalid (by decide)).2.1)⟩,
    ⟨by decide, by decide, by decide,
      ((C4_pipeline_process_gate.2.2.1 20 none true 1000 []
        (fun s => if s = sampleSymbol then some 0 else none)
        { symbol := sampleSymbol, timestamp := 1, price := 1, volume := 1 } 1
        (by decide) (by decide) (by decide)).1)⟩,
    ⟨by decide,
      C4_pipeline_process_gate.2.2.2 20
        (fun s => if s = sampleSymbol then some 0 else none) sampleSymbol 1
        (by decide)⟩⟩

/-- C5 counterexample: with one buffered trade and a persistently failing
downstream, the first backoff sleep is 100 ms (not 50 ms) and the sixth
is 3200 ms, exceeding the claimed 2 s cap: the doubling happens before
the sleep and before the cap comparison. -/
theorem C5_flusher_backoff_counterexample :
    (Flusher.flushRun 1 (fun _ => false) 6 (Flusher.flushInit [()])).sleeps =
      [100, 200, 400, 800, 1600, 3200]
    ∧ (Flusher.flushRun 1 (fun _ => false) 1 (Flusher.flushInit [()])).sleeps = [100]
    ∧ ¬((3200 : Nat) ≤ 2000) ∧ (100 : Nat) ≠ 50 := by
  decide

/-- Helper: one failure step keeps the backoff in the reachable set
`{50·2^k | k ≤ 6}` and below 3.2 s. -/
theorem backoff_double_step (b : Nat)
    (hb : b ∈ ([50, 100, 200, 400, 800, 1600, 3200] : List Nat)) :
    (if b < 2000 then b * 2 else b) ∈
      ([50, 100, 200, 400, 800, 1600, 3200] : List Nat) ∧
    (if b < 2000 then b * 2 else b) ≤ 3200 := by
  fin_cases hb <;> decide

/-- Helper: one flusher iteration preserves the backoff invariant and the
3.2 s bound on every sleep performed so far. -/
theorem flushIter_inv {T : Type} (cap : Nat) (proc : Nat → Bool)
    (s : Flusher.FlushState T)
    (hb : s.backoff ∈ ([50, 100, 200, 400, 800, 1600, 3200] : List Nat))
    (hs : ∀ d ∈ s.sleeps, d ≤ 3200) :
    (Flusher.flushIter cap proc s).backoff ∈
      ([50, 100, 200, 400, 800, 1600, 3200] : List Nat)
    ∧ ∀ d ∈ (Flusher.flushIter cap proc s).sleeps, d ≤ 3200 := by
  have hstep := backoff_double_step s.backoff hb
  unfold Flusher.flushIter
  cases hbuf : s.buffer with
  | nil => exact ⟨hb, hs⟩
  | cons t rest =>
    dsimp only
    cases hp : proc s.calls with
    | true =>
      rw [if_pos rfl]
      exact ⟨List.mem_cons_self _ _, hs⟩
    | false =>
      rw [if_neg (by simp)]
      by_cases hroom : rest.length < cap
      · rw [if_pos hroom]
        refine ⟨hstep.1, ?_⟩
        intro d hd
        rcases List.mem_append.mp hd with hd | hd
        · exact hs d hd
        · rcases List.mem_singleton.mp hd with rfl
          exact hstep.2
      · rw [if_neg hroom]
        refine ⟨hstep.1, ?_⟩
        intro d hd
        rcases List.mem_append.mp hd with hd | hd
        · exact hs d hd
        · rcases List.mem_singleton.mp hd with rfl
          exact hstep.2

/-- Helper: every sleep performed by a flusher run from a state
satisfying the invariant is at most 3.2 s. -/
theorem flushRun_inv {T : Type} (cap : Nat) (proc : Nat → Bool) :
    ∀ (n : Nat) (s : Flusher.FlushState T),
      s.backoff ∈ ([50, 100, 200, 400, 800, 1600, 3200] : List Nat) →
      (∀ d ∈ s.sleeps, d ≤ 3200) →
      ∀ d ∈ (Flusher.flushRun cap proc n s).sleeps, d ≤ 3200 := by
  intro n
  induction n with
  | zero => intro s hb hs; exact hs
  | succ k ih =>
    intro s hb hs
    have h := flushIter_inv cap proc s hb hs
    exact ih (Flusher.flushIter cap proc s) h.1 h.2

/-- C5 amended: every backoff sleep of the flusher is at most 3.2 s (the
2 s constant bounds the pre-doubling value, so sleeps reach 3.2 s, not
2 s); the first sleep after a failure from the 50 ms seed is 100 ms; each
failure re-enqueues the trade when the buffer has room and drops it with
a counter otherwise; and a trade whose downstream rejects twice and then
accepts is processed with nothing dropped. -/
theorem C5_flusher_backoff_requeue :
    (∀ (T : Type) (cap : Nat) (proc : Nat → Bool) (n : Nat) (buf : List T),
      ∀ d ∈ (Flusher.flushRun cap proc n (Flusher.flushInit buf)).sleeps, d ≤ 3200)
    ∧ (∀ (T : Type) (cap : Nat) (proc : Nat → Bool) (s : Flusher.FlushState T)
        (t : T) (rest : List T),
      s.backoff = 50 → s.buffer = t :: rest → proc s.calls = false →
        (Flusher.flushIter cap proc s).sleeps = s.sleeps ++ [100]
        ∧ (rest.length < cap →
            (Flusher.flushIter cap proc s).buffer = rest ++ [t]
            ∧ (Flusher.flushIter cap proc s).drops = s.drops)
        ∧ (¬ rest.length < cap →
            (Flusher.flushIter cap proc s).buffer = rest
            ∧ (Flusher.flushIter cap proc s).drops = s.drops + 1))
    ∧ (∀ (T : Type) (t : T),
      (Flusher.flushRun 1 rejectTwice 3 (Flusher.flushInit [t])).processed = 1
      ∧ (Flusher.flushRun 1 rejectTwice 3 (Flusher.flushInit [t])).drops = 0
      ∧ (Flusher.flushRun 1 rejectTwice 3 (Flusher.flushInit [t])).buffer = []
      ∧ (Flusher.flushRun 1 rejectTwice 3 (Flusher.flushInit [t])).sleeps =
          [100, 200]) := by
  refine ⟨?_, ?_, ?_⟩
  · intro T cap proc n buf
    exact flushRun_inv cap proc n (Flusher.flushInit buf)
      (by simp [Flusher.flushInit])
      (by intro d hd; simp [Flusher.flushInit] at hd)
  · intro T cap proc s t rest hb hbuf hp
    unfold Flusher.flushIter
    rw [hbuf]
    dsimp only
    by_cases hroom : rest.length < cap <;> simp [hp, hb, hroom]
  · intro T t
    refine ⟨rfl, rfl, rfl, rfl⟩

/-- Witness for C5 amended: a single-slot buffer holding one trade whose
downstream rejects the first call. -/
theorem C5_flusher_backoff_requeue_witness :
    ((Flusher.flushInit [()]).backoff = 50
      ∧ (Flusher.flushInit [()]).buffer = [()]
      ∧ (fun _ => false) (Flusher.flushInit [()]).calls = false) ∧
    ((Flusher.flushIter 1 (fun _ => false) (Flusher.flushInit [()])).sleeps =
        (Flusher.flushInit [()]).sleeps ++ [100]
      ∧ (([] : List Unit).length < 1 →
          (Flusher.flushIter 1 (fun _ => false) (Flusher.flushInit [()])).buffer =
            [] ++ [()]
          ∧ (Flusher.flushIter 1 (fun _ => false) (Flusher.flushInit [()])).drops =
            (Flusher.flushInit [()]).drops)
      ∧ (¬ ([] : List Unit).length < 1 →
          (Flusher.flushIter 1 (fun _ => false) (Flusher.flushInit [()])).buffer = []
          ∧ (Flusher.flushIter 1 (fun _ => false) (Flusher.flushInit [()])).drops =
            (Flusher.flushInit [()]).drops + 1)) :=
  ⟨⟨rfl, rfl, rfl⟩,
    C5_flusher_backoff_requeue.2.1 Unit 1 (fun _ => false)
      (Flusher.flushInit [()]) () [] rfl rfl rfl⟩

end FinPull
